import Mathlib

/-!
Shallow embedding of montge/github-repo-public-indexer (Python) in Lean 4.

Sources embedded:
  * src/src/metadata_collector.py  (MetadataCollector)
  * src/src/github_client.py       (GitHubClient.get_all_repositories, _handle_rate_limit)
  * src/src/json_generator.py      (JSONGenerator.generate_output, _validate_output,
                                    create_summary license breakdown)
  * src/collect_repos.py           (main: process exit statuses)

Modelling conventions:
  * Python `str` values that the code slices or tokenizes are `List Char`
    (`PyStr`); Python `len`/slicing are code-point based, matching `List Char`.
  * A call against the remote API that can raise `GithubException` is a
    field of type `Fetch α = Except GhError α` on the repository handle:
    `.ok` is a successful fetch (already base64-decoded where the code
    decodes), `.error` is a raised `GithubException`.  This is the SDK's
    documented failure mode for the fetch calls the collector wraps in
    `try/except GithubException`.
  * `hasattr(repo, a)`-style attribute presence is an `Option Bool` field:
    `none` means the attribute is absent and a direct read raises
    `AttributeError`.
  * Python dicts built by the code are Lean structures with the same keys;
    `list(set(...))` is `List.dedup` (same members, no duplicates; the
    source order of a Python set is not significant and nothing reads it).
  * Python `round(x, 1)` on the language percentages is modelled as exact
    rational rounding to one decimal (`round1`); binary-float tie behaviour
    is not modelled.
-/

namespace GhIndexer

/-- A raised `GithubException` (status and message), the failure mode of the
SDK fetch calls. -/
structure GhError where
  status : Nat
  msg : String
deriving DecidableEq, Repr

/-- Result of a remote fetch: the value, or a raised `GithubException`. -/
abbrev Fetch (α : Type) := Except GhError α

/-- A raised `AttributeError` when reading an absent attribute. -/
structure AttributeError where
  attr : String
deriving DecidableEq, Repr

/-- Python `str` as a list of code points. -/
abbrev PyStr := List Char

/-- A UTC `datetime` (the fields the code touches). -/
structure Dt where
  year : Nat
  month : Nat
  day : Nat
  hour : Nat
  minute : Nat
  second : Nat
deriving DecidableEq, Repr

/-- One entry of `repo.get_contributors()`. -/
structure Contributor where
  login : String
  contributions : Nat
  html_url : String
deriving DecidableEq, Repr

/-- One entry of `repo.get_teams()`. -/
structure Team where
  name : String
  permission : String
deriving DecidableEq, Repr

/-- The `license_info.license` object when `repo.get_license()` finds one. -/
structure LicInfo where
  key : String
  name : String
  spdx_id : String
  url : String
deriving DecidableEq, Repr

/-- A PyGithub repository handle: the attributes and fetch methods
`MetadataCollector` uses.  Status-flag attributes are `Option Bool` so that
attribute absence (`hasattr` false) is representable. -/
structure Repo where
  name : String
  full_name : String
  description : Option String
  url : String
  html_url : String
  homepage : Option String
  created_at : Option String
  updated_at : Option String
  pushed_at : Option String
  size : Nat
  default_branch : String
  isPrivate : Bool
  archived : Option Bool
  fork : Option Bool
  is_template : Option Bool
  disabled : Option Bool
  has_issues : Option Bool
  has_projects : Option Bool
  has_wiki : Option Bool
  has_pages : Option Bool
  has_downloads : Option Bool
  has_discussions : Option Bool
  stargazers_count : Nat
  watchers_count : Nat
  forks_count : Nat
  open_issues_count : Nat
  owner_login : String
  owner_type : String
  owner_html_url : String
  get_commits : Dt → Fetch Nat
  get_contributors : Fetch (List Contributor)
  get_pulls_open : Fetch Nat
  get_languages : Fetch (List (String × Nat))
  get_license : Fetch (Option LicInfo)
  get_topics : Fetch (List String)
  get_readme : Fetch PyStr
  get_teams : Fetch (List Team)
  get_contents : String → Fetch PyStr

/-- The `basic_info` group of the record. -/
structure BasicInfo where
  name : String
  full_name : String
  description : Option String
  url : String
  html_url : String
  homepage : Option String
  created_at : Option String
  updated_at : Option String
  pushed_at : Option String
  size : Nat
  default_branch : String
  visibility : String
deriving DecidableEq, Repr

/-- The `status` group of the record. -/
structure Status where
  is_archived : Bool
  is_fork : Bool
  is_template : Bool
  is_disabled : Bool
  has_issues : Bool
  has_projects : Bool
  has_wiki : Bool
  has_pages : Bool
  has_downloads : Bool
  has_discussions : Bool
deriving DecidableEq, Repr

/-- The `activity` group of the record. -/
structure Activity where
  stars : Nat
  watchers : Nat
  forks : Nat
  open_issues : Nat
  open_pull_requests : Nat
  last_commit_date : Option String
  commit_count_30d : Nat
  contributor_count : Nat
deriving DecidableEq, Repr

/-- The `languages` group of the record. -/
structure LangInfo where
  primary : Option String
  breakdown : List (String × ℚ)
deriving DecidableEq, Repr

/-- The `license` group of the record (the dict with four keys). -/
structure License where
  key : Option String
  name : Option String
  spdx_id : Option String
  url : Option String
deriving DecidableEq, Repr

/-- One entry of `ownership.top_contributors`. -/
structure TopContributor where
  login : String
  contributions : Nat
  profile_url : String
deriving DecidableEq, Repr

/-- The `ownership.codeowners` sub-dict (`exists_` is the JSON key
`exists`, a Lean keyword). -/
structure Codeowners where
  exists_ : Bool
  owners : List PyStr
deriving DecidableEq, Repr

/-- The `ownership` group of the record. -/
structure Ownership where
  owner_login : String
  owner_type : String
  owner_url : String
  top_contributors : List TopContributor
  teams : List Team
  codeowners : Codeowners
deriving DecidableEq, Repr

/-- The full per-repository record (`license` is `Option` because the
Python signature of `_collect_license` is `Optional[Dict]`). -/
structure Metadata where
  basic_info : BasicInfo
  status : Status
  activity : Activity
  languages : LangInfo
  license : Option License
  topics : List String
  readme_preview : Option PyStr
  ownership : Ownership

/-- `try: ... except GithubException: default` around a fetch. -/
def catchGh {α : Type} (x : Fetch α) (default : α) : α :=
  match x with
  | .ok a => a
  | .error _ => default

/-- Reading a status attribute directly (no `hasattr` guard): raises
`AttributeError` when absent. -/
def readAttr (attrName : String) : Option Bool → Except AttributeError Bool
  | some b => .ok b
  | none => .error ⟨attrName⟩

/-- `MetadataCollector._collect_basic_info`. -/
def _collect_basic_info (repo : Repo) : BasicInfo :=
  { name := repo.name
    full_name := repo.full_name
    description := repo.description
    url := repo.url
    html_url := repo.html_url
    homepage := repo.homepage
    created_at := repo.created_at
    updated_at := repo.updated_at
    pushed_at := repo.pushed_at
    size := repo.size
    default_branch := repo.default_branch
    visibility := if !repo.isPrivate then "public" else "private" }

/-- `MetadataCollector._collect_status`: `archived`, `fork` and the five
`has_*` toggles other than discussions are read directly; only
`is_template`, `disabled` and `has_discussions` are guarded by `hasattr`
with default `False`. -/
def _collect_status (repo : Repo) : Except AttributeError Status := do
  let a ← readAttr "archived" repo.archived
  let f ← readAttr "fork" repo.fork
  let t := repo.is_template.getD false
  let d := repo.disabled.getD false
  let hi ← readAttr "has_issues" repo.has_issues
  let hp ← readAttr "has_projects" repo.has_projects
  let hw ← readAttr "has_wiki" repo.has_wiki
  let hpg ← readAttr "has_pages" repo.has_pages
  let hd ← readAttr "has_downloads" repo.has_downloads
  let hdisc := repo.has_discussions.getD false
  pure { is_archived := a, is_fork := f, is_template := t, is_disabled := d,
         has_issues := hi, has_projects := hp, has_wiki := hw,
         has_pages := hpg, has_downloads := hd, has_discussions := hdisc }

/-- The `since` computed in `_collect_activity`:
`datetime.now(timezone.utc).replace(day=1)` — only the day is replaced,
the time of day is kept. -/
def activity_since (now : Dt) : Dt :=
  { now with day := 1 }

/-- `MetadataCollector._collect_activity` (the `now` of the run is a
parameter). -/
def _collect_activity (now : Dt) (repo : Repo) : Activity :=
  let commits_30d := catchGh (repo.get_commits (activity_since now)) 0
  let contributor_count := catchGh (repo.get_contributors.map List.length) 0
  let open_prs := catchGh repo.get_pulls_open 0
  { stars := repo.stargazers_count
    watchers := repo.watchers_count
    forks := repo.forks_count
    open_issues := repo.open_issues_count
    open_pull_requests := open_prs
    last_commit_date := repo.pushed_at
    commit_count_30d := commits_30d
    contributor_count := contributor_count }

/-- Python `round(x, 1)` on the percentage, as exact rational rounding to
one decimal place. -/
def round1 (q : ℚ) : ℚ :=
  ((round (q * 10) : ℤ) : ℚ) / 10

/-- Python `max(items, key=lambda x: x[1])` on a non-empty association
list: left fold keeping the current item unless a later one is strictly
greater, so the first maximum wins. -/
def pyMaxBySnd (x : String × Nat) (xs : List (String × Nat)) : String × Nat :=
  xs.foldl (fun best y => if y.2 > best.2 then y else best) x

/-- `MetadataCollector._collect_languages`. -/
def _collect_languages (repo : Repo) : LangInfo :=
  match repo.get_languages with
  | .error _ => { primary := none, breakdown := [] }
  | .ok langs =>
    match langs with
    | [] => { primary := none, breakdown := [] }
    | l0 :: rest =>
      let total : Nat := ((l0 :: rest).map Prod.snd).sum
      let breakdown := (l0 :: rest).map
        (fun p => (p.1, round1 (((p.2 : ℚ) / (total : ℚ)) * 100)))
      let primary := (pyMaxBySnd l0 rest).1
      { primary := some primary, breakdown := breakdown }

/-- `MetadataCollector._collect_license`: every path returns the four-key
dict; the `Option` of the Python signature is never `none`. -/
def _collect_license (repo : Repo) : Option License :=
  match repo.get_license with
  | .ok (some li) =>
      some { key := some li.key, name := some li.name,
             spdx_id := some li.spdx_id, url := some li.url }
  | .ok none => some { key := none, name := none, spdx_id := none, url := none }
  | .error _ => some { key := none, name := none, spdx_id := none, url := none }

/-- `MetadataCollector._collect_topics`. -/
def _collect_topics (repo : Repo) : List String :=
  catchGh repo.get_topics []

/-- `MetadataCollector._collect_readme_preview`: first `max_chars`
code points, with `"..."` appended when the original is longer. -/
def _collect_readme_preview (repo : Repo) (max_chars : Nat := 500) :
    Option PyStr :=
  match repo.get_readme with
  | .error _ => none
  | .ok content =>
    let preview := content.take max_chars
    if content.length > max_chars then
      some (preview ++ ['.', '.', '.'])
    else
      some preview

/-- Python `line.strip()`: drop leading and trailing whitespace. -/
def pyStrip (s : PyStr) : PyStr :=
  ((s.dropWhile Char.isWhitespace).reverse.dropWhile Char.isWhitespace).reverse

/-- Python `line.split()` (no argument): split on whitespace runs, no empty
tokens. -/
def pySplitWs (s : PyStr) : List PyStr :=
  (s.splitOnP Char.isWhitespace).filter (fun w => !w.isEmpty)

/-- Python `s.startswith(c)` for a one-character needle. -/
def startsWithCh (c : Char) : PyStr → Bool
  | [] => false
  | d :: _ => d == c

/-- The `@`-tokens contributed by one CODEOWNERS line: strip, skip when
empty or a comment, split on whitespace and keep the tokens starting with
`@`. -/
def codeownersLineOwners (line : PyStr) : List PyStr :=
  let l := pyStrip line
  if !l.isEmpty && !startsWithCh '#' l then
    (pySplitWs l).filter (startsWithCh '@')
  else
    []

/-- CODEOWNERS parsing: split the decoded content on newlines, accumulate
the per-line owners, then `list(set(owners))` (modelled as `dedup`). -/
def parseCodeowners (content : PyStr) : List PyStr :=
  ((content.splitOn '\n').foldl
    (fun acc line => acc ++ codeownersLineOwners line) []).dedup

/-- The fixed candidate paths probed for a CODEOWNERS file, in order. -/
def codeownersPaths : List String :=
  [".github/CODEOWNERS", "CODEOWNERS", "docs/CODEOWNERS"]

/-- The CODEOWNERS probe loop: first path whose `get_contents` succeeds is
parsed and the loop breaks; a raised `GithubException` moves to the next
path. -/
def probeCodeowners (repo : Repo) : List String → Codeowners
  | [] => { exists_ := false, owners := [] }
  | p :: ps =>
    match repo.get_contents p with
    | .ok content => { exists_ := true, owners := parseCodeowners content }
    | .error _ => probeCodeowners repo ps

/-- `MetadataCollector._collect_ownership`: top contributors are the first
`max_contributors` entries of the source ranking; teams map to
(name, permission); each lookup falls back to its empty default on a
raised `GithubException`. -/
def _collect_ownership (max_contributors : Nat) (repo : Repo) : Ownership :=
  { owner_login := repo.owner_login
    owner_type := repo.owner_type
    owner_url := repo.owner_html_url
    top_contributors :=
      catchGh (repo.get_contributors.map (fun cs =>
        (cs.take max_contributors).map (fun c =>
          { login := c.login, contributions := c.contributions,
            profile_url := c.html_url }))) []
    teams := catchGh repo.get_teams []
    codeowners := probeCodeowners repo codeownersPaths }

/-- `MetadataCollector.collect_repository_metadata`: builds the eight
groups; the only way it fails is an exception escaping a group collector
(here: an `AttributeError` from `_collect_status`), which the outer
`except` re-raises. -/
def collect_repository_metadata (now : Dt) (max_contributors : Nat)
    (repo : Repo) : Except AttributeError Metadata :=
  match _collect_status repo with
  | .error e => .error e
  | .ok st =>
    .ok { basic_info := _collect_basic_info repo
          status := st
          activity := _collect_activity now repo
          languages := _collect_languages repo
          license := _collect_license repo
          topics := _collect_topics repo
          readme_preview := _collect_readme_preview repo
          ownership := _collect_ownership max_contributors repo }

/-! ## GitHubClient (src/src/github_client.py) -/

/-- A repository handle as seen by the enumerator filters. -/
structure RepoH where
  full_name : String
  fork : Bool
  archived : Bool
deriving DecidableEq, Repr

/-- Outcome of one attempt of the listing loop in `get_all_repositories`:
it either completes with the full listing, is interrupted by
`RateLimitExceededException` (discarding the progress made so far; the
environment also supplies the quota reset instant and the current time,
as epoch seconds), or raises some other `GithubException`. -/
inductive ListOutcome
  | ok (repos : List RepoH)
  | rateLimited (progress : List RepoH) (reset : Int) (now : Int)
  | failed (e : GhError)

/-- The inclusion filters of `get_all_repositories`: a repository is
skipped iff (`not include_forks and repo.fork`) or
(`not include_archived and repo.archived`). -/
def applyFilters (include_forks include_archived : Bool)
    (repos : List RepoH) : List RepoH :=
  repos.filter (fun r =>
    !((!include_forks && r.fork) || (!include_archived && r.archived)))

/-- `GitHubClient._handle_rate_limit`: sleep for
(reset − now) + 10 seconds, skipping the sleep when non-positive.
Returns the list of sleeps performed. -/
def _handle_rate_limit (reset : Int) (now : Int) : List Int :=
  let sleep_time := reset - now + 10
  if sleep_time > 0 then [sleep_time] else []

/-- Result of `get_all_repositories`: the returned (filtered) list, a
propagated non-quota error, or `pending` when the supplied attempt stream
ran out (the recursion is still running). -/
inductive EnumResult
  | done (repos : List RepoH)
  | raised (e : GhError)
  | pending
deriving DecidableEq, Repr

/-- `GitHubClient.get_all_repositories`, driven by the stream of listing
attempt outcomes: a rate-limited attempt sleeps via `_handle_rate_limit`
and restarts from scratch with the same parameters; any other
`GithubException` propagates; a successful listing is filtered and
returned.  Also returns the trace of sleeps performed. -/
def get_all_repositories (org : String)
    (include_forks include_archived : Bool) :
    List ListOutcome → List Int × EnumResult
  | [] => ([], .pending)
  | .ok rs :: _ =>
      ([], .done (applyFilters include_forks include_archived rs))
  | .rateLimited _ reset nowT :: rest =>
      let s := _handle_rate_limit reset nowT
      let r := get_all_repositories org include_forks include_archived rest
      (s ++ r.1, r.2)
  | .failed e :: _ => ([], .raised e)

/-! ## JSONGenerator (src/src/json_generator.py) -/

/-- JSON values, for the written report document. -/
inductive Json
  | null
  | bool (b : Bool)
  | num (n : Int)
  | str (s : String)
  | arr (xs : List Json)
  | obj (kvs : List (String × Json))

/-- Key lookup in a JSON object (`none` on a non-object or missing key). -/
def Json.lookup : Json → String → Option Json
  | .obj kvs, k => (kvs.find? (fun p => p.1 == k)).map Prod.snd
  | _, _ => none

/-- Replace the value of a key in a JSON object (used to model corrupting
a written report). -/
def Json.setKey : Json → String → Json → Json
  | .obj kvs, k, v => .obj (kvs.map (fun p => if p.1 == k then (k, v) else p))
  | j, _, _ => j

/-- `JSONGenerator._create_metadata`. -/
def _create_metadata (tool_version : String) (org_name : String)
    (total_repos : Nat) (generated_at : String) : Json :=
  .obj [("generated_at", .str generated_at),
        ("organization", .str org_name),
        ("total_repositories", .num (total_repos : Int)),
        ("tool_version", .str tool_version),
        ("github_api_version", .str "2022-11-28")]

/-- The document built by `JSONGenerator.generate_output` and written to
disk (serialization and re-reading are value-faithful, so the written and
re-read document is this value). -/
def generate_output (tool_version : String) (org_name : String)
    (repositories : List Json) (generated_at : String) : Json :=
  .obj [("metadata",
          _create_metadata tool_version org_name repositories.length
            generated_at),
        ("repositories", .arr repositories)]

/-- `JSONGenerator._validate_output` on the re-read document: the asserts
in source order; the error carries the failing assert's message
(abbreviated here: quotes and the interpolated counts are dropped). -/
def _validate_output (data : Json) : Except String Unit :=
  match data.lookup "metadata" with
  | none => .error "Missing metadata section"
  | some md =>
    match data.lookup "repositories" with
    | none => .error "Missing repositories section"
    | some repos =>
      match repos with
      | .arr rs =>
        match md.lookup "generated_at" with
        | none => .error "Missing generated_at in metadata"
        | some _ =>
          match md.lookup "organization" with
          | none => .error "Missing organization in metadata"
          | some _ =>
            match md.lookup "total_repositories" with
            | none => .error "Missing total_repositories in metadata"
            | some expected =>
              match expected with
              | .num n =>
                  if n = (rs.length : Int) then .ok ()
                  else .error "Repository count mismatch"
              | _ => .error "Repository count mismatch"
      | _ => .error "repositories must be a list"

/-- `licenses[k] = licenses.get(k, 0) + 1` on the counts dict. -/
def bumpCount (counts : List (String × Nat)) (k : String) :
    List (String × Nat) :=
  if counts.any (fun p => p.1 == k) then
    counts.map (fun p => if p.1 == k then (p.1, p.2 + 1) else p)
  else
    counts ++ [(k, 1)]

/-- The bucket one license dict counts under in the summary loop: a
truthy key counts under itself, a falsy one (None or the empty string)
under "unlicensed". -/
def bucketKey (lic : License) : String :=
  match lic.key with
  | some k => if k ≠ "" then k else "unlicensed"
  | none => "unlicensed"

/-- The bucket key one record contributes to the license breakdown:
`repo["license"]["key"]` raises on a null license group. -/
def licenseKeyBucket : Option License → Except String String
  | none => .error "TypeError: license is None"
  | some lic => .ok (bucketKey lic)

/-- The license-breakdown loop of `JSONGenerator.create_summary`. -/
def summaryLicenseBreakdown (ls : List (Option License)) :
    Except String (List (String × Nat)) :=
  ls.foldlM (fun counts ol => (licenseKeyBucket ol).map (bumpCount counts)) []

/-! ## collect_repos.py (main) -/

/-- The branch `main` ends in, abstracted from the control flow of
collect_repos.py: completion with the count of per-repository failures,
the empty-repository-set early exit, KeyboardInterrupt, or an unhandled
exception. -/
inductive RunOutcome
  | completed (succeeded : Nat) (failedCount : Nat)
  | nothingFound
  | interrupted
  | fatal (msg : String)
deriving DecidableEq, Repr

/-- The process exit status of `main` for each outcome:
`sys.exit(1)` on no repositories, `sys.exit(0 if not failed_repos else 1)`
on completion, `sys.exit(130)` on KeyboardInterrupt, `sys.exit(1)` on any
other exception. -/
def mainExitCode : RunOutcome → Nat
  | .nothingFound => 1
  | .completed _ failedCount => if failedCount = 0 then 0 else 1
  | .interrupted => 130
  | .fatal _ => 1

/-- The per-repository loop of `main` in collect_repos.py: collect each
repository, appending successes to the data list and failures (name plus
error text) to the failure list. -/
def processRepos (now : Dt) (max_contributors : Nat) (repos : List Repo) :
    List Metadata × List (String × String) :=
  repos.foldl
    (fun acc repo =>
      match collect_repository_metadata now max_contributors repo with
      | .ok md => (acc.1 ++ [md], acc.2)
      | .error e => (acc.1, acc.2 ++ [(repo.full_name, e.attr)]))
    ([], [])

/-! ## Concrete sample values (used by witnesses and counterexamples) -/

/-- A well-behaved repository handle: every attribute except
`has_discussions` is reported, every fetch succeeds. -/
def sampleRepo : Repo :=
  { name := "alpha", full_name := "acme/alpha", description := some "demo"
    url := "api/repos/acme/alpha", html_url := "host/acme/alpha"
    homepage := none
    created_at := some "2024-01-01T00:00:00"
    updated_at := some "2025-06-01T00:00:00"
    pushed_at := some "2025-06-02T03:04:05"
    size := 10, default_branch := "main", isPrivate := false
    archived := some false, fork := some false
    is_template := some false, disabled := some false
    has_issues := some true, has_projects := some true
    has_wiki := some false, has_pages := some false
    has_downloads := some true, has_discussions := none
    stargazers_count := 7, watchers_count := 7, forks_count := 1
    open_issues_count := 2
    owner_login := "acme", owner_type := "Organization"
    owner_html_url := "host/acme"
    get_commits := fun _ => .ok 3
    get_contributors := .ok [⟨"alice", 10, "host/alice"⟩, ⟨"bob", 5, "host/bob"⟩]
    get_pulls_open := .ok 1
    get_languages := .ok [("Python", 8000), ("JavaScript", 2000)]
    get_license := .ok (some ⟨"mit", "MIT License", "MIT", "host/mit"⟩)
    get_topics := .ok ["cli"]
    get_readme := .ok ['h', 'i']
    get_teams := .ok [⟨"devs", "push"⟩]
    get_contents := fun _ => .error ⟨404, "Not Found"⟩ }

/-- A raised `GithubException` used by the failing sample fetches. -/
def ghFail : GhError := ⟨500, "boom"⟩

/-- Like `sampleRepo`, but every optional sub-resource fetch raises. -/
def failRepo : Repo :=
  { sampleRepo with
    get_commits := fun _ => .error ghFail
    get_contributors := .error ghFail
    get_pulls_open := .error ghFail
    get_languages := .error ghFail
    get_license := .error ghFail
    get_topics := .error ghFail
    get_readme := .error ghFail
    get_teams := .error ghFail
    get_contents := fun _ => .error ghFail }

/-- A fixed run instant: 2026-10-12 15:30:45 UTC. -/
def cNow : Dt := ⟨2026, 10, 12, 15, 30, 45⟩

/-! ## Helper lemmas -/

/-- The seven status attributes `_collect_status` reads without a
`hasattr` guard. -/
def statusAttrsPresent (r : Repo) : Bool :=
  r.archived.isSome && r.fork.isSome && r.has_issues.isSome &&
  r.has_projects.isSome && r.has_wiki.isSome && r.has_pages.isSome &&
  r.has_downloads.isSome

theorem status_ok_of_present (r : Repo) (h : statusAttrsPresent r = true) :
    _collect_status r =
      .ok { is_archived := r.archived.getD false
            is_fork := r.fork.getD false
            is_template := r.is_template.getD false
            is_disabled := r.disabled.getD false
            has_issues := r.has_issues.getD false
            has_projects := r.has_projects.getD false
            has_wiki := r.has_wiki.getD false
            has_pages := r.has_pages.getD false
            has_downloads := r.has_downloads.getD false
            has_discussions := r.has_discussions.getD false } := by
  simp only [statusAttrsPresent, Bool.and_eq_true, Option.isSome_iff_exists]
    at h
  obtain ⟨⟨⟨⟨⟨⟨⟨a, ha⟩, ⟨f, hf⟩⟩, ⟨i, hi⟩⟩, ⟨p, hp⟩⟩, ⟨w, hw⟩⟩, ⟨g, hg⟩⟩,
    ⟨d, hd⟩⟩ := h
  simp [_collect_status, readAttr, ha, hf, hi, hp, hw, hg, hd, bind,
    Except.bind, pure, Except.pure]

/-! ## Claim C4 (activity window) -/

/-- The since-timestamp the claim describes: the first instant of the
current calendar month in UTC (midnight on day 1).  Stated from the spec
sentence, for comparison with the code's `activity_since`. -/
def firstInstantOfMonth (now : Dt) : Dt :=
  { year := now.year, month := now.month, day := 1,
    hour := 0, minute := 0, second := 0 }

/-- A handle whose commit fetch reveals the since-instant it was given
(seconds past midnight of the since-timestamp). -/
def sinceProbeRepo : Repo :=
  { sampleRepo with
    get_commits := fun d => .ok (d.hour * 3600 + d.minute * 60 + d.second) }

/-- Claim C4 counterexample: at 2026-10-12 15:30:45 UTC the code passes a
since-timestamp whose time of day is 15:30:45, not 00:00:00 — `replace(day=1)`
keeps the time of day, so the count is taken from a since-instant that is
not the first instant of the month. -/
theorem c4_since_not_month_start_counterexample :
    (_collect_activity cNow sinceProbeRepo).commit_count_30d = 55845 ∧
    catchGh (sinceProbeRepo.get_commits (firstInstantOfMonth cNow)) 0 = 0 ∧
    activity_since cNow ≠ firstInstantOfMonth cNow := by
  refine ⟨rfl, rfl, ?_⟩
  decide

/-- Claim C4 amended: the commits metric uses a since-timestamp equal to
the current UTC instant with the day of month replaced by 1 and the time
of day preserved (not midnight), not a rolling 30-day window. -/
theorem c4_since_is_day_one_same_time (now : Dt) (repo : Repo) :
    activity_since now =
      { year := now.year, month := now.month, day := 1,
        hour := now.hour, minute := now.minute, second := now.second } ∧
    (_collect_activity now repo).commit_count_30d =
      catchGh (repo.get_commits (activity_since now)) 0 :=
  ⟨rfl, rfl⟩

/-! ## Claim C6 (README preview) -/

/-- Claim C6: when the decoded README text fits the budget the preview is
the text unchanged (no ellipsis); when it is longer, the preview is the
first `max_chars` characters followed by the 3-character ellipsis, of
total length `max_chars + 3`. -/
theorem c6_readme_preview_truncation (repo : Repo) (content : PyStr)
    (max_chars : Nat) (h : repo.get_readme = .ok content) :
    (content.length ≤ max_chars →
      _collect_readme_preview repo max_chars = some content) ∧
    (max_chars < content.length →
      _collect_readme_preview repo max_chars =
        some (content.take max_chars ++ ['.', '.', '.']) ∧
      (content.take max_chars ++ ['.', '.', '.']).length = max_chars + 3) := by
  constructor
  · intro hle
    simp [_collect_readme_preview, h, Nat.not_lt.mpr hle,
      List.take_of_length_le hle]
  · intro hlt
    refine ⟨by simp [_collect_readme_preview, h, hlt], ?_⟩
    simp [List.length_take, Nat.min_eq_left (Nat.le_of_lt hlt)]

/-- Claim C6 witness: a 4-character README with budget 2 gives the first
two characters plus the ellipsis (length 5); with budget 500 it is
returned unchanged. -/
theorem c6_readme_preview_truncation_witness :
    (sampleRepo.get_readme = .ok ['h', 'i']) ∧
    _collect_readme_preview sampleRepo 1 = some (['h'] ++ ['.', '.', '.']) ∧
    _collect_readme_preview sampleRepo 500 = some ['h', 'i'] := by
  refine ⟨rfl, ?_, ?_⟩
  · exact ((c6_readme_preview_truncation sampleRepo ['h', 'i'] 1 rfl).2
      (by decide)).1
  · exact (c6_readme_preview_truncation sampleRepo ['h', 'i'] 500 rfl).1
      (by decide)

/-! ## Claim C8 (status flags) -/

/-- A handle identical to `sampleRepo` except that the platform does not
report `has_wiki`. -/
def wikiAbsentRepo : Repo :=
  { sampleRepo with has_wiki := none, has_discussions := some true }

/-- Claim C8 counterexample: `has_wiki` is read without a `hasattr` guard,
so a handle that does not report it makes `_collect_status` raise an
`AttributeError` instead of defaulting the flag to false — the flag is not
absent-safe. -/
theorem c8_absent_wiki_raises_counterexample :
    _collect_status wikiAbsentRepo = .error ⟨"has_wiki"⟩ := by
  rfl

/-- Claim C8 amended: only `is_template`, `disabled` and `has_discussions`
are absent-safe (absent reports default to false); the other seven flags
(`archived`, `fork`, `has_issues`, `has_projects`, `has_wiki`,
`has_pages`, `has_downloads`) are read unconditionally, and when they are
all reported the collection succeeds with the three guarded flags
defaulting as documented. -/
theorem c8_only_guarded_flags_absent_safe (repo : Repo)
    (h : statusAttrsPresent repo = true) :
    ∃ st, _collect_status repo = .ok st ∧
      st.is_template = repo.is_template.getD false ∧
      st.is_disabled = repo.disabled.getD false ∧
      st.has_discussions = repo.has_discussions.getD false := by
  exact ⟨_, status_ok_of_present repo h, rfl, rfl, rfl⟩

/-- Claim C8 witness: `sampleRepo` reports the seven unguarded flags and
omits `has_discussions`, which defaults to false. -/
theorem c8_only_guarded_flags_absent_safe_witness :
    statusAttrsPresent sampleRepo = true ∧
    ∃ st, _collect_status sampleRepo = .ok st ∧
      st.is_template = sampleRepo.is_template.getD false ∧
      st.is_disabled = sampleRepo.disabled.getD false ∧
      st.has_discussions = sampleRepo.has_discussions.getD false :=
  ⟨by decide, c8_only_guarded_flags_absent_safe sampleRepo (by decide)⟩

/-! ## Claim C9 (process exit statuses) -/

/-- Claim C9 counterexample: the partial-failure exit status (completion
with one failed repository) is 1, identical to both the generic-failure
status and the nothing-found status — the statuses the claim calls
distinct are not pairwise distinguishable. -/
theorem c9_partial_failure_status_not_distinct_counterexample :
    mainExitCode (.completed 5 1) = 1 ∧
    mainExitCode (.completed 5 1) = mainExitCode (.fatal "boom") ∧
    mainExitCode .nothingFound = mainExitCode (.fatal "boom") := by
  decide

/-- Claim C9 amended: zero failed repositories exits 0; one or more
failures with overall completion exits 1 — non-zero and distinct from
success, but identical to the nothing-found and generic-failure statuses;
an empty repository set exits 1; user interruption exits 130, distinct
from every other status; an unhandled exception exits 1. -/
theorem c9_exit_statuses (s f : Nat) (msg : String) (hf : f ≠ 0) :
    mainExitCode (.completed s 0) = 0 ∧
    mainExitCode (.completed s f) = 1 ∧
    mainExitCode .nothingFound = 1 ∧
    mainExitCode .interrupted = 130 ∧
    mainExitCode (.fatal msg) = 1 ∧
    mainExitCode .interrupted ≠ mainExitCode (.fatal msg) ∧
    mainExitCode .interrupted ≠ mainExitCode (.completed s f) ∧
    mainExitCode .interrupted ≠ mainExitCode (.completed s 0) ∧
    mainExitCode (.completed s 0) ≠ mainExitCode (.completed s f) := by
  simp [mainExitCode, hf]

/-- Claim C9 witness: the amended exit statuses at a concrete run with 5
successes and 1 failure. -/
theorem c9_exit_statuses_witness :
    (1 : Nat) ≠ 0 ∧
    (mainExitCode (.completed 5 0) = 0 ∧
     mainExitCode (.completed 5 1) = 1 ∧
     mainExitCode .nothingFound = 1 ∧
     mainExitCode .interrupted = 130 ∧
     mainExitCode (.fatal "boom") = 1 ∧
     mainExitCode .interrupted ≠ mainExitCode (.fatal "boom") ∧
     mainExitCode .interrupted ≠ mainExitCode (.completed 5 1) ∧
     mainExitCode .interrupted ≠ mainExitCode (.completed 5 0) ∧
     mainExitCode (.completed 5 0) ≠ mainExitCode (.completed 5 1)) :=
  ⟨by decide, c9_exit_statuses 5 1 "boom" (by decide)⟩

/-! ## Claim C1 (sub-lookups independently fault-tolerant) -/

/-- Claim C1: for a repository handle whose always-read attributes are
present, `collect_repository_metadata` returns a record no matter which
optional sub-resource fetches raise, and each failing sub-lookup is
replaced at its point of use by its documented default: languages with
null primary and empty breakdown, license with all four fields null,
topics empty, README preview null, top contributors empty and contributor
count zero, teams empty, commit count zero, CODEOWNERS exists false with
empty owners. -/
theorem c1_sub_lookups_fault_tolerant (now : Dt) (maxc : Nat) (repo : Repo)
    (h : statusAttrsPresent repo = true) :
    ∃ md, collect_repository_metadata now maxc repo = .ok md ∧
      (∀ e, repo.get_languages = .error e →
        md.languages = { primary := none, breakdown := [] }) ∧
      (∀ e, repo.get_license = .error e →
        md.license = some { key := none, name := none,
                            spdx_id := none, url := none }) ∧
      (∀ e, repo.get_topics = .error e → md.topics = []) ∧
      (∀ e, repo.get_readme = .error e → md.readme_preview = none) ∧
      (∀ e, repo.get_contributors = .error e →
        md.ownership.top_contributors = [] ∧
        md.activity.contributor_count = 0) ∧
      (∀ e, repo.get_teams = .error e → md.ownership.teams = []) ∧
      (∀ e, repo.get_commits (activity_since now) = .error e →
        md.activity.commit_count_30d = 0) ∧
      ((∀ p, ∃ e, repo.get_contents p = .error e) →
        md.ownership.codeowners = { exists_ := false, owners := [] }) := by
  have hst := status_ok_of_present repo h
  have hcol : collect_repository_metadata now maxc repo = .ok
      { basic_info := _collect_basic_info repo
        status := { is_archived := repo.archived.getD false
                    is_fork := repo.fork.getD false
                    is_template := repo.is_template.getD false
                    is_disabled := repo.disabled.getD false
                    has_issues := repo.has_issues.getD false
                    has_projects := repo.has_projects.getD false
                    has_wiki := repo.has_wiki.getD false
                    has_pages := repo.has_pages.getD false
                    has_downloads := repo.has_downloads.getD false
                    has_discussions := repo.has_discussions.getD false }
        activity := _collect_activity now repo
        languages := _collect_languages repo
        license := _collect_license repo
        topics := _collect_topics repo
        readme_preview := _collect_readme_preview repo
        ownership := _collect_ownership maxc repo } := by
    simp [collect_repository_metadata, hst]
  refine ⟨_, hcol, ?_, ?_, ?_, ?_, ?_, ?_, ?_, ?_⟩
  · intro e he
    simp [_collect_languages, he]
  · intro e he
    simp [_collect_license, he]
  · intro e he
    simp [_collect_topics, catchGh, he]
  · intro e he
    simp [_collect_readme_preview, he]
  · intro e he
    constructor
    · simp [_collect_ownership, catchGh, he, Except.map]
    · simp [_collect_activity, catchGh, he, Except.map]
  · intro e he
    simp [_collect_ownership, catchGh, he]
  · intro e he
    simp [_collect_activity, catchGh, he]
  · intro hall
    obtain ⟨e1, h1⟩ := hall ".github/CODEOWNERS"
    obtain ⟨e2, h2⟩ := hall "CODEOWNERS"
    obtain ⟨e3, h3⟩ := hall "docs/CODEOWNERS"
    simp [_collect_ownership, codeownersPaths, probeCodeowners, h1, h2, h3]

/-- Claim C1 witness: `failRepo` reports the unguarded attributes and
every optional fetch raises; collection still succeeds, with (for
instance) empty topics, null README preview and null license fields. -/
theorem c1_sub_lookups_fault_tolerant_witness :
    statusAttrsPresent failRepo = true ∧
    ∃ md, collect_repository_metadata cNow 5 failRepo = .ok md ∧
      md.topics = [] ∧
      md.readme_preview = none ∧
      md.license = some { key := none, name := none,
                          spdx_id := none, url := none } := by
  obtain ⟨md, hok, _, hlic, htop, hrd, _, _, _, _⟩ :=
    c1_sub_lookups_fault_tolerant cNow 5 failRepo (by decide)
  exact ⟨by decide, md, hok, htop ghFail rfl, hrd ghFail rfl, hlic ghFail rfl⟩

/-! ## Claim C5 (language breakdown and primary language) -/

/-- Maximum of a list of byte counts (0 for the empty list). -/
def listMaxNat (l : List Nat) : Nat := l.foldr max 0

/-- The primary-language selection as the claim words it: the first
language, in source iteration order, whose byte count equals the maximum
byte count. -/
def firstMaxKey : List (String × Nat) → Option String
  | [] => none
  | x :: xs =>
    ((x :: xs).find?
      (fun p => p.2 == listMaxNat ((x :: xs).map Prod.snd))).map Prod.fst

theorem pyMaxBySnd_first_max (x : String × Nat) (xs : List (String × Nat)) :
    some (pyMaxBySnd x xs) =
      (x :: xs).find?
        (fun p => p.2 == listMaxNat ((x :: xs).map Prod.snd)) := by
  induction xs generalizing x with
  | nil => simp [pyMaxBySnd, List.find?, listMaxNat]
  | cons y ys ih =>
    have hstep : pyMaxBySnd x (y :: ys) =
        pyMaxBySnd (if y.2 > x.2 then y else x) ys := rfl
    have hmax : listMaxNat ((x :: y :: ys).map Prod.snd) =
        max (max x.2 y.2) (listMaxNat (ys.map Prod.snd)) := by
      simp [listMaxNat, Nat.max_assoc]
    by_cases hyx : y.2 > x.2
    · have hz : (if y.2 > x.2 then y else x) = y := if_pos hyx
      have hm2 : listMaxNat ((y :: ys).map Prod.snd) =
          listMaxNat ((x :: y :: ys).map Prod.snd) := by
        rw [hmax, Nat.max_eq_right (Nat.le_of_lt hyx)]
        simp [listMaxNat]
      have hxne :
          (x.2 == listMaxNat ((x :: y :: ys).map Prod.snd)) = false := by
        have h1 : y.2 ≤ listMaxNat ((x :: y :: ys).map Prod.snd) := by
          rw [hmax]
          omega
        simp only [beq_eq_false_iff_ne, ne_eq]
        omega
      rw [hstep, hz, ih y]
      simp only [hm2]
      simp only [List.find?_cons, hxne, cond_false]
    · have hz : (if y.2 > x.2 then y else x) = x := if_neg hyx
      have hm2 : listMaxNat ((x :: ys).map Prod.snd) =
          listMaxNat ((x :: y :: ys).map Prod.snd) := by
        rw [hmax, Nat.max_eq_left (Nat.le_of_not_lt hyx)]
        simp [listMaxNat]
      rw [hstep, hz, ih x]
      simp only [hm2]
      by_cases hx :
          (x.2 == listMaxNat ((x :: y :: ys).map Prod.snd)) = true
      · simp only [List.find?_cons, hx, cond_true]
      · have hxf :
            (x.2 == listMaxNat ((x :: y :: ys).map Prod.snd)) = false :=
          Bool.not_eq_true _ ▸ hx
        have hyne :
            (y.2 == listMaxNat ((x :: y :: ys).map Prod.snd)) = false := by
          have h1 : x.2 ≤ listMaxNat ((x :: y :: ys).map Prod.snd) := by
            rw [hmax]
            omega
          simp only [beq_eq_false_iff_ne, ne_eq] at hxf ⊢
          omega
        simp only [List.find?_cons, hxf, hyne, cond_false]

/-- Claim C5: for a non-empty language byte-count mapping, the breakdown
assigns each language `round(bytes / total × 100)` to one decimal place,
and the primary language is the first one attaining the maximum byte
count; an empty mapping or a failed lookup yields an empty breakdown and
a null primary. -/
theorem c5_language_breakdown (repo : Repo) :
    (∀ langs, repo.get_languages = .ok langs → langs ≠ [] →
      (_collect_languages repo).breakdown =
        langs.map (fun p =>
          (p.1,
           round1 (((p.2 : ℚ) / (((langs.map Prod.snd).sum : Nat) : ℚ)) *
             100))) ∧
      (_collect_languages repo).primary = firstMaxKey langs) ∧
    (repo.get_languages = .ok [] →
      _collect_languages repo = { primary := none, breakdown := [] }) ∧
    (∀ e, repo.get_languages = .error e →
      _collect_languages repo = { primary := none, breakdown := [] }) := by
  refine ⟨?_, ?_, ?_⟩
  · intro langs hok hne
    match langs, hne with
    | l0 :: rest, _ =>
      refine ⟨by simp [_collect_languages, hok], ?_⟩
      rw [show firstMaxKey (l0 :: rest) =
            ((l0 :: rest).find?
              (fun p =>
                p.2 == listMaxNat ((l0 :: rest).map Prod.snd))).map Prod.fst
          from rfl,
        ← pyMaxBySnd_first_max]
      simp [_collect_languages, hok]
  · intro hok
    simp [_collect_languages, hok]
  · intro e he
    simp [_collect_languages, he]

/-- Claim C5 witness: bytes Python 8000 and JavaScript 2000 give the
breakdown Python 80.0, JavaScript 20.0 with primary Python; a failing
lookup gives the empty breakdown and null primary. -/
theorem c5_language_breakdown_witness :
    sampleRepo.get_languages = .ok [("Python", 8000), ("JavaScript", 2000)] ∧
    (_collect_languages sampleRepo).breakdown =
      [("Python", (80 : ℚ)), ("JavaScript", (20 : ℚ))] ∧
    (_collect_languages sampleRepo).primary = some "Python" ∧
    _collect_languages failRepo = { primary := none, breakdown := [] } := by
  have h := (c5_language_breakdown sampleRepo).1
    [("Python", 8000), ("JavaScript", 2000)] rfl (by decide)
  have hf := (c5_language_breakdown failRepo).2.2 ghFail rfl
  refine ⟨rfl, ?_, ?_, hf⟩
  · rw [h.1]
    norm_num [round1]
  · rw [h.2]
    rfl

/-! ## Claim C3 (rate-limit wait and restart, other failures propagate) -/

/-- Claim C3: after any prefix of quota-exhausted attempts, the enumerator
sleeps (reset − now) + 10 for each (skipping non-positive waits) and
restarts from scratch with the same parameters, discarding the partial
progress of every interrupted attempt: a successful attempt yields exactly
its own filtered listing, and a non-quota failure propagates unchanged
with no retry (the attempts after it are never consulted). -/
theorem c3_rate_limit_wait_restart (org : String)
    (include_forks include_archived : Bool)
    (rls : List (List RepoH × Int × Int)) (rest : List ListOutcome) :
    (∀ rs, get_all_repositories org include_forks include_archived
        (rls.map (fun t => ListOutcome.rateLimited t.1 t.2.1 t.2.2) ++
          ListOutcome.ok rs :: rest) =
      (rls.flatMap (fun t =>
          if t.2.1 - t.2.2 + 10 > 0 then [t.2.1 - t.2.2 + 10] else []),
        .done (applyFilters include_forks include_archived rs))) ∧
    (∀ e, get_all_repositories org include_forks include_archived
        (rls.map (fun t => ListOutcome.rateLimited t.1 t.2.1 t.2.2) ++
          ListOutcome.failed e :: rest) =
      (rls.flatMap (fun t =>
          if t.2.1 - t.2.2 + 10 > 0 then [t.2.1 - t.2.2 + 10] else []),
        .raised e)) := by
  induction rls with
  | nil =>
    exact ⟨fun rs => rfl, fun e => rfl⟩
  | cons t ts ih =>
    constructor
    · intro rs
      simp only [List.map_cons, List.cons_append, get_all_repositories,
        List.append_eq, ih.1 rs, List.flatMap_cons, _handle_rate_limit]
    · intro e
      simp only [List.map_cons, List.cons_append, get_all_repositories,
        List.append_eq, ih.2 e, List.flatMap_cons, _handle_rate_limit]

/-! ## Claim C7 (CODEOWNERS probing and parsing) -/

theorem foldl_append_codeowners (lines : List PyStr) (acc : List PyStr) :
    lines.foldl (fun a line => a ++ codeownersLineOwners line) acc =
      acc ++ lines.flatMap codeownersLineOwners := by
  induction lines generalizing acc with
  | nil => simp
  | cons l ls ih => simp [ih, List.flatMap_cons, List.append_assoc]

theorem mem_codeownersLineOwners (tok line : PyStr) :
    tok ∈ codeownersLineOwners line ↔
      (pyStrip line ≠ [] ∧ startsWithCh '#' (pyStrip line) = false ∧
        tok ∈ pySplitWs (pyStrip line) ∧ startsWithCh '@' tok = true) := by
  unfold codeownersLineOwners
  by_cases h1 : pyStrip line = []
  · simp [h1]
  · have h1e : (pyStrip line).isEmpty = false := by
      cases hl : pyStrip line with
      | nil => exact absurd hl h1
      | cons c cs => rfl
    by_cases h2 : startsWithCh '#' (pyStrip line) = true
    · simp [h1e, h2, h1]
    · have h2f : startsWithCh '#' (pyStrip line) = false := by
        cases h : startsWithCh '#' (pyStrip line)
        · rfl
        · exact absurd h h2
      simp [h1e, h2f, h1, List.mem_filter]

theorem probeCodeowners_exists_iff (repo : Repo) (ps : List String) :
    (probeCodeowners repo ps).exists_ = true ↔
      ∃ p ∈ ps, ∃ c, repo.get_contents p = .ok c := by
  induction ps with
  | nil => simp [probeCodeowners]
  | cons p ps ih =>
    cases hp : repo.get_contents p with
    | ok c => simp [probeCodeowners, hp]
    | error e => simp [probeCodeowners, hp, ih]

/-- Claim C7: the CODEOWNERS probe tries `.github/CODEOWNERS`,
`CODEOWNERS`, `docs/CODEOWNERS` in that order and uses the first that
resolves; `exists` is true exactly when some candidate resolves; and for
every content, the owners are exactly the whitespace-separated tokens
beginning with `@` taken from lines that are non-empty after stripping
and whose first non-whitespace character is not `#`, de-duplicated. -/
theorem c7_codeowners_probe_and_parse (repo : Repo) :
    (∀ c, repo.get_contents ".github/CODEOWNERS" = .ok c →
      probeCodeowners repo codeownersPaths =
        { exists_ := true, owners := parseCodeowners c }) ∧
    (∀ e c, repo.get_contents ".github/CODEOWNERS" = .error e →
      repo.get_contents "CODEOWNERS" = .ok c →
      probeCodeowners repo codeownersPaths =
        { exists_ := true, owners := parseCodeowners c }) ∧
    (∀ e1 e2 c, repo.get_contents ".github/CODEOWNERS" = .error e1 →
      repo.get_contents "CODEOWNERS" = .error e2 →
      repo.get_contents "docs/CODEOWNERS" = .ok c →
      probeCodeowners repo codeownersPaths =
        { exists_ := true, owners := parseCodeowners c }) ∧
    ((probeCodeowners repo codeownersPaths).exists_ = true ↔
      ∃ p ∈ codeownersPaths, ∃ c, repo.get_contents p = .ok c) ∧
    (∀ content tok,
      (tok ∈ parseCodeowners content ↔
        ∃ line ∈ content.splitOn '\n',
          pyStrip line ≠ [] ∧
          startsWithCh '#' (pyStrip line) = false ∧
          tok ∈ pySplitWs (pyStrip line) ∧
          startsWithCh '@' tok = true) ∧
      (parseCodeowners content).Nodup) := by
  refine ⟨?_, ?_, ?_, probeCodeowners_exists_iff repo codeownersPaths,
    ?_⟩
  · intro c hc
    simp [probeCodeowners, codeownersPaths, hc]
  · intro e c he hc
    simp [probeCodeowners, codeownersPaths, he, hc]
  · intro e1 e2 c he1 he2 hc
    simp [probeCodeowners, codeownersPaths, he1, he2, hc]
  · intro content tok
    constructor
    · rw [parseCodeowners, List.mem_dedup, foldl_append_codeowners,
        List.nil_append, List.mem_flatMap]
      exact exists_congr (fun line =>
        and_congr Iff.rfl (mem_codeownersLineOwners tok line))
    · exact List.nodup_dedup _

/-- The decoded CODEOWNERS content of testable property 4 of the spec. -/
def sampleCodeowners : PyStr :=
  ("* @user1 @user2\n/docs/ @doc-team\n# Comment line").toList

/-- A handle whose `.github/CODEOWNERS` resolves to `sampleCodeowners`
and whose other paths do not resolve. -/
def codeownersRepo : Repo :=
  { sampleRepo with
    get_contents := fun p =>
      if p == ".github/CODEOWNERS" then .ok sampleCodeowners
      else .error ⟨404, "Not Found"⟩ }

/-- Claim C7 witness: the first candidate path resolves and the sample
content parses to the three distinct owner handles, with exists true. -/
theorem c7_codeowners_probe_and_parse_witness :
    codeownersRepo.get_contents ".github/CODEOWNERS" = .ok sampleCodeowners ∧
    probeCodeowners codeownersRepo codeownersPaths =
      { exists_ := true, owners := parseCodeowners sampleCodeowners } ∧
    parseCodeowners sampleCodeowners =
      ["@user1".toList, "@user2".toList, "@doc-team".toList] := by
  refine ⟨rfl,
    (c7_codeowners_probe_and_parse codeownersRepo).1 sampleCodeowners rfl,
    by decide⟩

/-! ## Claim C2 (report count invariant and post-write validation) -/

/-- The written report with `metadata.total_repositories` replaced by `m`
(the corruption of testable property 5 of the spec). -/
def corruptTotal (tool_version org_name : String) (repositories : List Json)
    (generated_at : String) (m : Int) : Json :=
  (generate_output tool_version org_name repositories generated_at).setKey
    "metadata"
    ((_create_metadata tool_version org_name repositories.length
        generated_at).setKey "total_repositories" (.num m))

/-- Claim C2: for every organization and record sequence the generated
document's `metadata.total_repositories` equals the record count and the
length of its `repositories` array; the post-write validation of that
document succeeds; validation of an arbitrary re-read document succeeds
exactly when all its checks hold; and corrupting `total_repositories` to
any mismatched value makes validation fail with the count-mismatch
error. -/
theorem c2_report_count_invariant_and_validation (tool org now : String)
    (repos : List Json) :
    ((generate_output tool org repos now).lookup "metadata").bind
        (fun md => md.lookup "total_repositories") =
      some (.num (repos.length : Int)) ∧
    (generate_output tool org repos now).lookup "repositories" =
      some (.arr repos) ∧
    _validate_output (generate_output tool org repos now) = .ok () ∧
    (∀ m : Int, m ≠ (repos.length : Int) →
      _validate_output (corruptTotal tool org repos now m) =
        .error "Repository count mismatch") ∧
    (∀ d : Json, _validate_output d = .ok () ↔
      ∃ md rs, d.lookup "metadata" = some md ∧
        d.lookup "repositories" = some (.arr rs) ∧
        (md.lookup "generated_at").isSome = true ∧
        (md.lookup "organization").isSome = true ∧
        md.lookup "total_repositories" = some (.num (rs.length : Int))) := by
  refine ⟨rfl, rfl, ?_, ?_, ?_⟩
  · show (if (repos.length : Int) = (repos.length : Int) then
        (.ok () : Except String Unit)
      else .error "Repository count mismatch") = .ok ()
    rw [if_pos rfl]
  · intro m hm
    show (if m = (repos.length : Int) then (.ok () : Except String Unit)
      else .error "Repository count mismatch") =
        .error "Repository count mismatch"
    rw [if_neg hm]
  · intro d
    constructor
    · intro h
      cases hmd : d.lookup "metadata" with
      | none =>
        simp only [_validate_output, hmd] at h
        exact absurd h (by simp)
      | some md =>
        cases hrs : d.lookup "repositories" with
        | none =>
          simp only [_validate_output, hmd, hrs] at h
          exact absurd h (by simp)
        | some rv =>
          cases rv with
          | arr rs =>
            cases hga : md.lookup "generated_at" with
            | none =>
              simp only [_validate_output, hmd, hrs, hga] at h
              exact absurd h (by simp)
            | some ga =>
              cases hor : md.lookup "organization" with
              | none =>
                simp only [_validate_output, hmd, hrs, hga, hor] at h
                exact absurd h (by simp)
              | some orgv =>
                cases htr : md.lookup "total_repositories" with
                | none =>
                  simp only [_validate_output, hmd, hrs, hga, hor, htr] at h
                  exact absurd h (by simp)
                | some tr =>
                  cases tr with
                  | num n =>
                    by_cases hn : n = (rs.length : Int)
                    · exact ⟨md, rs, by simp [hmd], by simp [hrs],
                        by simp [hga], by simp [hor], by simp [htr, hn]⟩
                    · simp only [_validate_output, hmd, hrs, hga, hor, htr,
                        if_neg hn] at h
                      exact absurd h (by simp)
                  | null =>
                    simp only [_validate_output, hmd, hrs, hga, hor, htr] at h
                    exact absurd h (by simp)
                  | bool b =>
                    simp only [_validate_output, hmd, hrs, hga, hor, htr] at h
                    exact absurd h (by simp)
                  | str sv =>
                    simp only [_validate_output, hmd, hrs, hga, hor, htr] at h
                    exact absurd h (by simp)
                  | arr xs =>
                    simp only [_validate_output, hmd, hrs, hga, hor, htr] at h
                    exact absurd h (by simp)
                  | obj kvs =>
                    simp only [_validate_output, hmd, hrs, hga, hor, htr] at h
                    exact absurd h (by simp)
          | null =>
            simp only [_validate_output, hmd, hrs] at h
            exact absurd h (by simp)
          | bool b =>
            simp only [_validate_output, hmd, hrs] at h
            exact absurd h (by simp)
          | num n =>
            simp only [_validate_output, hmd, hrs] at h
            exact absurd h (by simp)
          | str sv =>
            simp only [_validate_output, hmd, hrs] at h
            exact absurd h (by simp)
          | obj kvs =>
            simp only [_validate_output, hmd, hrs] at h
            exact absurd h (by simp)
    · rintro ⟨md, rs, hmd, hrs, hga, hor, htr⟩
      obtain ⟨ga, hga2⟩ := Option.isSome_iff_exists.mp hga
      obtain ⟨orgv, hor2⟩ := Option.isSome_iff_exists.mp hor
      simp only [_validate_output, hmd, hrs, hga2, hor2, htr, if_true]

/-- Claim C2 witness: a two-record report has
`total_repositories = 2 = len(repositories)` and validates; corrupting the
count to 3 fails with the count-mismatch error. -/
theorem c2_report_count_invariant_and_validation_witness :
    ((3 : Int) ≠ ((2 : Nat) : Int)) ∧
    ((generate_output "0.1.0" "acme" [Json.null, Json.null]
        "2026-10-12T00:00:00+00:00").lookup "metadata").bind
        (fun md => md.lookup "total_repositories") =
      some (.num (2 : Int)) ∧
    _validate_output (generate_output "0.1.0" "acme" [Json.null, Json.null]
        "2026-10-12T00:00:00+00:00") = .ok () ∧
    _validate_output (corruptTotal "0.1.0" "acme" [Json.null, Json.null]
        "2026-10-12T00:00:00+00:00" 3) =
      .error "Repository count mismatch" := by
  have h := c2_report_count_invariant_and_validation "0.1.0" "acme"
    "2026-10-12T00:00:00+00:00" [Json.null, Json.null]
  exact ⟨by decide, h.1, h.2.2.1, h.2.2.2.1 3 (by decide)⟩

/-! ## Claim C10 (license group never null; summary bucketing) -/

theorem _collect_license_never_null (repo : Repo) :
    ∃ lic, _collect_license repo = some lic := by
  unfold _collect_license
  cases repo.get_license with
  | error e => exact ⟨_, rfl⟩
  | ok o =>
    cases o with
    | none => exact ⟨_, rfl⟩
    | some li => exact ⟨_, rfl⟩

theorem collect_ok_license_eq (now : Dt) (maxc : Nat) (repo : Repo)
    (md : Metadata)
    (h : collect_repository_metadata now maxc repo = .ok md) :
    md.license = _collect_license repo := by
  cases hst : _collect_status repo with
  | error e =>
    simp only [collect_repository_metadata, hst] at h
    exact absurd h (by simp)
  | ok st =>
    simp only [collect_repository_metadata, hst, Except.ok.injEq] at h
    rw [← h]

theorem processRepos_license_never_null (now : Dt) (maxc : Nat)
    (repos : List Repo) :
    ∀ md ∈ (processRepos now maxc repos).1, ∃ lic, md.license = some lic := by
  have key : ∀ (l : List Repo) (acc : List Metadata × List (String × String)),
      (∀ md ∈ acc.1, ∃ lic, md.license = some lic) →
      ∀ md ∈ (l.foldl (fun acc repo =>
          match collect_repository_metadata now maxc repo with
          | .ok md => (acc.1 ++ [md], acc.2)
          | .error e => (acc.1, acc.2 ++ [(repo.full_name, e.attr)]))
          acc).1,
        ∃ lic, md.license = some lic := by
    intro l
    induction l with
    | nil => exact fun acc hacc => hacc
    | cons r rs ih =>
      intro acc hacc
      simp only [List.foldl_cons]
      cases hc : collect_repository_metadata now maxc r with
      | ok md0 =>
        simp only [hc]
        refine ih _ ?_
        intro md hmd
        rcases List.mem_append.mp hmd with hmem | hmem
        · exact hacc md hmem
        · have heq : md = md0 := by simpa using hmem
          subst heq
          rw [collect_ok_license_eq now maxc r md hc]
          exact _collect_license_never_null r
      | error e =>
        simp only [hc]
        exact ih _ hacc
  exact key repos ([], []) (by simp)

theorem summaryLicenseBreakdown_eq_foldl (ls : List (Option License))
    (h : ∀ ol ∈ ls, ol.isSome = true) :
    ∀ init, ls.foldlM
        (fun counts ol => (licenseKeyBucket ol).map (bumpCount counts))
        init =
      .ok ((ls.map (fun ol => (ol.map bucketKey).getD "unlicensed")).foldl
        bumpCount init) := by
  induction ls with
  | nil => exact fun init => rfl
  | cons ol ls ih =>
    intro init
    obtain ⟨lic, hol⟩ := Option.isSome_iff_exists.mp (h ol (by simp))
    subst hol
    simp only [List.foldlM_cons, licenseKeyBucket, Except.map, List.map_cons,
      Option.map_some, Option.getD_some, List.foldl_cons, bind, Except.bind]
    exact ih (fun o ho => h o (by simp [ho])) (bumpCount init (bucketKey lic))

/-- The count recorded for key `k` in the summary counts dict (0 when the
key is absent). -/
def countFor (counts : List (String × Nat)) (k : String) : Nat :=
  ((counts.find? (fun p => p.1 == k)).map Prod.snd).getD 0

theorem countFor_bumpCount_same (counts : List (String × Nat)) (k : String) :
    countFor (bumpCount counts k) k = countFor counts k + 1 := by
  unfold bumpCount countFor
  by_cases hany : counts.any (fun p => p.1 == k) = true
  · rw [if_pos hany, List.find?_map]
    obtain ⟨x0, hx0, hx0k⟩ := List.any_eq_true.mp hany
    have hiss : (counts.find? (fun p => p.1 == k)).isSome = true :=
      List.find?_isSome.mpr ⟨x0, hx0, hx0k⟩
    obtain ⟨q, hq⟩ := Option.isSome_iff_exists.mp hiss
    have hfst : (fun p : String × Nat => p.1 == k) ∘
        (fun p : String × Nat => if p.1 == k then (p.1, p.2 + 1) else p) =
        (fun p : String × Nat => p.1 == k) := by
      funext p
      by_cases hp : p.1 = k <;> simp [hp]
    rw [hfst, hq]
    have hqk := List.find?_some hq
    simp only [beq_iff_eq] at hqk
    simp [hqk]
  · rw [if_neg hany]
    have hnone : counts.find? (fun p => p.1 == k) = none := by
      rw [List.find?_eq_none]
      intro x hx
      simp only [Bool.not_eq_true]
      rcases Bool.eq_false_or_eq_true (x.1 == k) with hb | hb
      · exact absurd (List.any_eq_true.mpr ⟨x, hx, hb⟩) hany
      · exact hb
    simp [List.find?_append, hnone, List.find?_cons]

theorem countFor_bumpCount_other (counts : List (String × Nat))
    (k0 k : String) (hne : k0 ≠ k) :
    countFor (bumpCount counts k0) k = countFor counts k := by
  unfold bumpCount countFor
  by_cases hany : counts.any (fun p => p.1 == k0) = true
  · rw [if_pos hany, List.find?_map]
    have hfst : (fun p : String × Nat => p.1 == k) ∘
        (fun p : String × Nat => if p.1 == k0 then (p.1, p.2 + 1) else p) =
        (fun p : String × Nat => p.1 == k) := by
      funext p
      by_cases hp : p.1 = k0 <;> simp [hp]
    rw [hfst]
    cases hfind : counts.find? (fun p => p.1 == k) with
    | none => simp
    | some q =>
      have hqk := List.find?_some hfind
      simp only [beq_iff_eq] at hqk
      have : q.1 ≠ k0 := by rw [hqk]; exact fun hk => hne hk.symm
      simp [this]
  · rw [if_neg hany]
    have hsingle : ([((k0 : String), (1 : Nat))].find?
        (fun p => p.1 == k)) = none := by
      simp [List.find?_cons, hne]
    cases hfind : counts.find? (fun p => p.1 == k) with
    | none => simp [List.find?_append, hfind, hsingle]
    | some q => simp [List.find?_append, hfind]

theorem countFor_foldl_bumpCount (ks : List String) (k : String) :
    ∀ init, countFor (ks.foldl bumpCount init) k =
      countFor init k + ks.count k := by
  induction ks with
  | nil => intro init; simp
  | cons k0 ks ih =>
    intro init
    simp only [List.foldl_cons, ih]
    by_cases h : k0 = k
    · subst h
      rw [countFor_bumpCount_same]
      simp [List.count_cons]
      omega
    · rw [countFor_bumpCount_other _ _ _ h]
      have : (k0 == k) = false := by
        simp only [beq_eq_false_iff_ne, ne_eq]
        exact h
      simp [List.count_cons, this]

/-- Claim C10: every record produced by the collection loop carries a
license group that is the four-key mapping and never the null value (all
four fields null when no license was detected or the lookup failed);
consequently the license-breakdown pass of `create_summary` is total on
collector-produced records, and every record with a null license key is
bucketed under the literal "unlicensed" key, whose count equals the
number of records whose bucket is "unlicensed". -/
theorem c10_license_group_never_null_and_bucketing (now : Dt) (maxc : Nat)
    (repos : List Repo) :
    (∀ md ∈ (processRepos now maxc repos).1, ∃ lic, md.license = some lic) ∧
    (∀ repo : Repo,
      (repo.get_license = .ok none ∨ ∃ e, repo.get_license = .error e) →
      _collect_license repo =
        some { key := none, name := none, spdx_id := none, url := none }) ∧
    (∃ counts, summaryLicenseBreakdown
        ((processRepos now maxc repos).1.map Metadata.license) =
          .ok counts ∧
      countFor counts "unlicensed" =
        (((processRepos now maxc repos).1.map Metadata.license).map
          (fun ol => (ol.map bucketKey).getD "unlicensed")).count
          "unlicensed") ∧
    (∀ lic : License, lic.key = none →
      licenseKeyBucket (some lic) = .ok "unlicensed") := by
  refine ⟨processRepos_license_never_null now maxc repos, ?_, ?_, ?_⟩
  · intro repo h
    rcases h with h | ⟨e, h⟩ <;> simp [_collect_license, h]
  · have hsome : ∀ ol ∈ (processRepos now maxc repos).1.map Metadata.license,
        ol.isSome = true := by
      intro ol hol
      obtain ⟨md, hmd, heq⟩ := List.mem_map.mp hol
      obtain ⟨lic, hlic⟩ := processRepos_license_never_null now maxc repos
        md hmd
      rw [← heq, hlic]
      rfl
    refine ⟨_, summaryLicenseBreakdown_eq_foldl _ hsome [], ?_⟩
    rw [countFor_foldl_bumpCount]
    simp [countFor]
  · intro lic hkey
    simp [licenseKeyBucket, bucketKey, hkey]

/-- Claim C10 witness: a run over `sampleRepo` (MIT license) and
`failRepo` (license lookup raises) produces records whose license groups
are present, the all-null group buckets under "unlicensed", and the
summary license pass succeeds. -/
theorem c10_license_group_never_null_and_bucketing_witness :
    License.key (⟨none, none, none, none⟩ : License) = none ∧
    licenseKeyBucket (some (⟨none, none, none, none⟩ : License)) =
      .ok "unlicensed" ∧
    ((failRepo.get_license = .error ghFail ∨
        ∃ e, failRepo.get_license = .error e) → True) ∧
    _collect_license failRepo =
      some { key := none, name := none, spdx_id := none, url := none } ∧
    ∃ counts, summaryLicenseBreakdown
        ((processRepos cNow 5 [sampleRepo, failRepo]).1.map
          Metadata.license) = .ok counts := by
  have h := c10_license_group_never_null_and_bucketing cNow 5
    [sampleRepo, failRepo]
  obtain ⟨counts, hc, _⟩ := h.2.2.1
  exact ⟨rfl, h.2.2.2 _ rfl, fun _ => trivial,
    h.2.1 failRepo (Or.inr ⟨ghFail, rfl⟩), counts, hc⟩

end GhIndexer
